import Mathlib

/-!
Shallow embedding of the notes service in `src/main.py` (FastAPI + SQLAlchemy
over a single SQLite table `notes`, plus one call-out to a local Ollama
generation endpoint).

The persistence store is modelled as a list of rows in rowid order.  The `id`
column is declared `Column(Integer, primary_key=True)`, which on SQLite is an
`INTEGER PRIMARY KEY` without `AUTOINCREMENT`: a freshly inserted row receives
rowid `max(rowid) + 1` (or `1` on an empty table), so a rowid of a deleted
maximal row can be handed out again.  `title` and `content` always hold the
strings supplied through the Pydantic schemas `NoteCreate` / `NoteUpdate`,
which only admit strings, so the row type carries plain `String` fields.

Each HTTP handler becomes a pure function from the store (and, for the
summarize endpoint, the outcome of the upstream HTTP call) to an
`Except HTTPException result` together with the resulting store.
-/

namespace NotesApi

/-- A persisted row of the `notes` table (ORM model `Note` in `src/main.py`). -/
structure Note where
  id : Nat
  title : String
  content : String
deriving Repr, DecidableEq

/-- The `notes` table, rows in rowid order. -/
abbrev Store := List Note

/-- Largest `id` currently in the table (0 when empty). -/
def maxId (s : Store) : Nat :=
  s.foldr (fun n acc => max n.id acc) 0

/-- SQLite rowid assignment for `INTEGER PRIMARY KEY` without `AUTOINCREMENT`:
the next insert receives `max(rowid) + 1`, i.e. `1` on an empty table. -/
def nextId (s : Store) : Nat :=
  maxId s + 1

/-- `fastapi.HTTPException`: an HTTP status code together with a JSON
`detail` message. -/
structure HTTPException where
  status_code : Nat
  detail : String
deriving Repr, DecidableEq

/-- The 404 raised by every handler when no row matches:
`HTTPException(status_code=404, detail="Note not found")`. -/
def noteNotFound : HTTPException :=
  { status_code := 404, detail := "Note not found" }

/-- Request body of `POST /notes` (Pydantic schema `NoteCreate`): both fields
are required strings. -/
structure NoteCreate where
  title : String
  content : String
deriving Repr, DecidableEq

/-- Request body of `PUT /notes/{id}` after Pydantic validation (schema
`NoteUpdate`, fields typed `str | None = None`): `none` stands for a field
that was absent from the JSON body or explicitly `null`. -/
structure NoteUpdate where
  title : Option String
  content : Option String
deriving Repr, DecidableEq

/-- A field of the raw JSON body of `PUT /notes/{id}`: missing from the
object, explicitly `null`, or a string. -/
inductive JsonField where
  | absent
  | null
  | str (s : String)
deriving Repr, DecidableEq

/-- How Pydantic reads one `str | None = None` field: an absent field takes
the default `None`, an explicit `null` parses to `None`, a string parses to
itself. -/
def JsonField.toOpt : JsonField → Option String
  | .absent => none
  | .null => none
  | .str s => some s

/-- Pydantic validation of the `PUT /notes/{id}` body into `NoteUpdate`. -/
def parseNoteUpdate (title content : JsonField) : NoteUpdate :=
  { title := title.toOpt, content := content.toOpt }

/-- Response body of `POST /notes/{id}/summarize` (Pydantic schema
`NoteSummary`). -/
structure NoteSummary where
  id : Nat
  title : String
  content : String
  summary : String
deriving Repr, DecidableEq

/-- `db.query(Note).filter(Note.id == note_id).first()`: the first row of the
table whose primary key matches. -/
def find_note (s : Store) (note_id : Nat) : Option Note :=
  s.find? (fun n => n.id == note_id)

/-- `POST /notes` (`create_note`): insert a new row, the store assigns the
id, return the refreshed entity together with the new table state. -/
def create_note (s : Store) (note : NoteCreate) : Note × Store :=
  let db_note : Note := { id := nextId s, title := note.title, content := note.content }
  (db_note, s ++ [db_note])

/-- `GET /notes` (`read_notes`): `db.query(Note).all()`, the whole table in
default retrieval order. -/
def read_notes (s : Store) : List Note :=
  s

/-- `GET /notes/{id}` (`read_note`): 404 when no row matches, otherwise the
row. -/
def read_note (s : Store) (note_id : Nat) : Except HTTPException Note :=
  match find_note s note_id with
  | none => .error noteNotFound
  | some note => .ok note

/-- The two `if ... is not None` assignments of `update_note`: only fields
present in the body overwrite the row. -/
def applyUpdate (note : Note) (note_data : NoteUpdate) : Note :=
  { note with
    title := match note_data.title with
      | some t => t
      | none => note.title
    content := match note_data.content with
      | some c => c
      | none => note.content }

/-- Overwrite the row found by `.first()` (the first row with the given
primary key) with its updated state; other rows are untouched. -/
def setNote : Store → Nat → Note → Store
  | [], _, _ => []
  | m :: rest, note_id, note =>
    if m.id == note_id then note :: rest
    else m :: setNote rest note_id note

/-- `PUT /notes/{id}` (`update_note`): 404 when no row matches; otherwise
apply only the supplied fields, commit, and return the refreshed entity. -/
def update_note (s : Store) (note_id : Nat) (note_data : NoteUpdate) :
    Except HTTPException (Note × Store) :=
  match find_note s note_id with
  | none => .error noteNotFound
  | some note =>
    let note' := applyUpdate note note_data
    .ok (note', setNote s note_id note')

/-- `DELETE /notes/{id}` (`delete_note`): 404 when no row matches; otherwise
`db.delete(note); db.commit()` removes the found row and the handler returns
`{"detail": "Note deleted"}` (modelled by the detail string). -/
def delete_note (s : Store) (note_id : Nat) :
    Except HTTPException (String × Store) :=
  match find_note s note_id with
  | none => .error noteNotFound
  | some _ => .ok ("Note deleted", s.eraseP (fun m => m.id == note_id))

/-- Python's `str.strip()` with no argument: remove whitespace from both ends
of the string (executable over the underlying character list, unlike
`String.trim`, so that concrete runs reduce). -/
def pyStrip (s : String) : String :=
  ⟨((s.data.dropWhile Char.isWhitespace).reverse.dropWhile Char.isWhitespace).reverse⟩

/-- Outcome of the `requests.post` call to the Ollama generation endpoint:
either the request raises `requests.exceptions.RequestException` (connection
refused, timeout, DNS failure, ...) with message `e`, or an HTTP response
arrives with a status code, a body text, and the optional `"response"` field
of the parsed JSON body. -/
inductive OllamaOutcome where
  | requestException (e : String)
  | httpResponse (status_code : Nat) (text : String) (responseField : Option String)
deriving Repr, DecidableEq

/-- `POST /notes/{id}/summarize` (`summarize_note`): 404 when no row matches;
then, depending on the upstream outcome: a `RequestException` becomes a 500
whose detail embeds the cause; a non-200 status becomes a 500 whose detail
embeds the upstream body; a 200 whose extracted `"response"` field
(`data.get("response", "").strip()`) is blank becomes a 500 with a fixed
message; otherwise the note plus the trimmed text is returned verbatim.
The handler never writes to the database. -/
def summarize_note (s : Store) (note_id : Nat) (ollama : OllamaOutcome) :
    Except HTTPException NoteSummary :=
  match find_note s note_id with
  | none => .error noteNotFound
  | some note =>
    match ollama with
    | .requestException e =>
      .error { status_code := 500, detail := "Error connecting to Ollama: " ++ e }
    | .httpResponse status_code text responseField =>
      if status_code != 200 then
        .error { status_code := 500, detail := "Ollama error: " ++ text }
      else
        let summary_text := pyStrip (responseField.getD "")
        if summary_text = "" then
          .error { status_code := 500, detail := "No summary returned from Ollama." }
        else
          .ok { id := note.id, title := note.title, content := note.content,
                summary := summary_text }

/-- One API request, as dispatched by the FastAPI routes. -/
inductive Request where
  | create (body : NoteCreate)
  | list
  | get (note_id : Nat)
  | update (note_id : Nat) (title content : JsonField)
  | delete (note_id : Nat)
  | summarize (note_id : Nat) (ollama : OllamaOutcome)
deriving Repr, DecidableEq

/-- A handler's successful or error response body. -/
inductive Response where
  | note (n : Note)
  | notes (l : List Note)
  | deleted (detail : String)
  | summary (sm : NoteSummary)
  | error (e : HTTPException)
deriving Repr, DecidableEq

/-- Dispatch one request against the store, returning the response and the
store left behind: a handler that raises `HTTPException` before any commit
leaves the store as it was. -/
def handle (s : Store) : Request → Response × Store
  | .create body =>
    let r := create_note s body
    (.note r.1, r.2)
  | .list => (.notes (read_notes s), s)
  | .get note_id =>
    match read_note s note_id with
    | .ok n => (.note n, s)
    | .error e => (.error e, s)
  | .update note_id title content =>
    match update_note s note_id (parseNoteUpdate title content) with
    | .ok r => (.note r.1, r.2)
    | .error e => (.error e, s)
  | .delete note_id =>
    match delete_note s note_id with
    | .ok r => (.deleted r.1, r.2)
    | .error e => (.error e, s)
  | .summarize note_id ollama =>
    match summarize_note s note_id ollama with
    | .ok sm => (.summary sm, s)
    | .error e => (.error e, s)

/-- Run a sequence of requests from a starting store. -/
def run (s : Store) (reqs : List Request) : Store :=
  reqs.foldl (fun st r => (handle st r).2) s

/-- The store invariant maintained by the primary-key column: ids are
pairwise distinct and every assigned id is positive. -/
def WF (s : Store) : Prop :=
  (s.map Note.id).Nodup ∧ ∀ m ∈ s, 1 ≤ m.id

/-! ### Basic lemmas about the table model -/

theorem id_le_maxId {s : Store} {m : Note} (h : m ∈ s) : m.id ≤ maxId s := by
  induction s with
  | nil => cases h
  | cons a t ih =>
    simp only [maxId, List.foldr_cons] at *
    rcases List.mem_cons.mp h with rfl | hm
    · exact Nat.le_max_left _ _
    · exact Nat.le_trans (ih hm) (Nat.le_max_right _ _)

theorem id_ne_nextId {s : Store} {m : Note} (h : m ∈ s) : m.id ≠ nextId s := by
  have := id_le_maxId h
  simp only [nextId]
  omega

/-- No row of the table carries the id the next insert would receive. -/
theorem find_note_nextId (s : Store) (n : Note) (hn : n.id = nextId s) :
    find_note s n.id = none := by
  refine List.find?_eq_none.mpr fun m hm => ?_
  simp only [beq_iff_eq]
  intro hmid
  exact id_ne_nextId hm (by rw [hmid, hn])

/-- Looking up the freshly assigned id after an append finds the new row. -/
theorem find_note_append_fresh (s : Store) (n : Note) (hn : n.id = nextId s) :
    find_note (s ++ [n]) n.id = some n := by
  unfold find_note
  rw [List.find?_append]
  have hs := find_note_nextId s n hn
  unfold find_note at hs
  rw [hs]
  simp

/-- Writing back the row that was just read leaves the table unchanged. -/
theorem setNote_of_find {s : Store} {note_id : Nat} {note : Note}
    (h : find_note s note_id = some note) : setNote s note_id note = s := by
  induction s with
  | nil => simp [find_note] at h
  | cons a t ih =>
    unfold find_note at h
    by_cases ha : (a.id == note_id) = true
    · rw [List.find?_cons_of_pos t ha] at h
      injection h with hae
      rw [← hae]
      simp [setNote, ha]
    · rw [List.find?_cons_of_neg t ha] at h
      simp [setNote, ha, ih h]

/-- Overwriting a row and then reading its id back returns the new state. -/
theorem find_note_setNote {s : Store} {note_id : Nat} {note note' : Note}
    (h : find_note s note_id = some note) (h' : note'.id = note_id) :
    find_note (setNote s note_id note') note_id = some note' := by
  induction s with
  | nil => simp [find_note] at h
  | cons a t ih =>
    by_cases ha : (a.id == note_id) = true
    · simp [setNote, find_note, List.find?_cons, ha, h']
    · have ht : find_note t note_id = some note := by
        simpa [find_note, List.find?_cons, ha] using h
      simp only [setNote]
      rw [if_neg ha]
      simpa [find_note, List.find?_cons, ha] using ih ht

/-- `setNote` with a row of the same id does not change the id column. -/
theorem map_id_setNote (s : Store) (note_id : Nat) (note' : Note)
    (h' : note'.id = note_id) :
    (setNote s note_id note').map Note.id = s.map Note.id := by
  induction s with
  | nil => rfl
  | cons a t ih =>
    by_cases ha : (a.id == note_id) = true
    · have : a.id = note_id := by simpa using ha
      simp [setNote, ha, h', this]
    · simp [setNote, ha, ih]

/-- With distinct ids, erasing the matching row leaves no row with that id. -/
theorem find_note_eraseP {s : Store} {note_id : Nat}
    (hnd : (s.map Note.id).Nodup) :
    find_note (s.eraseP (fun m => m.id == note_id)) note_id = none := by
  induction s with
  | nil => rfl
  | cons a t ih =>
    rw [List.map_cons] at hnd
    rcases List.nodup_cons.mp hnd with ⟨hna, hnt⟩
    have ha' : ∀ b : Bool, (a.id == note_id) = b → (fun m : Note => m.id == note_id) a = b :=
      fun _ h => h
    by_cases ha : (a.id == note_id) = true
    · have haid : a.id = note_id := by simpa using ha
      rw [show List.eraseP (fun m : Note => m.id == note_id) (a :: t) = t from
        List.eraseP_cons_of_pos (ha' true ha)]
      refine List.find?_eq_none.mpr fun m hm => ?_
      simp only [beq_iff_eq]
      intro hmid
      have hmem : m.id ∈ t.map Note.id := List.mem_map_of_mem Note.id hm
      rw [hmid, ← haid] at hmem
      exact hna hmem
    · have hb : ¬(fun m : Note => m.id == note_id) a = true := ha
      rw [show List.eraseP (fun m : Note => m.id == note_id) (a :: t) =
          a :: List.eraseP (fun m : Note => m.id == note_id) t from
        List.eraseP_cons_of_neg hb]
      unfold find_note
      rw [show List.find? (fun n : Note => n.id == note_id)
            (a :: List.eraseP (fun m : Note => m.id == note_id) t) =
          List.find? (fun n : Note => n.id == note_id)
            (List.eraseP (fun m : Note => m.id == note_id) t) from
        List.find?_cons_of_neg _ hb]
      exact ih hnt

theorem find_note_mem {s : Store} {note_id : Nat} {note : Note}
    (h : find_note s note_id = some note) : note ∈ s ∧ note.id = note_id :=
  ⟨List.mem_of_find?_eq_some h, by simpa using List.find?_some h⟩

theorem applyUpdate_id (note : Note) (d : NoteUpdate) :
    (applyUpdate note d).id = note.id := rfl

theorem mem_setNote {s : Store} {note_id : Nat} {note' m : Note}
    (h : m ∈ setNote s note_id note') : m ∈ s ∨ m = note' := by
  induction s with
  | nil => cases h
  | cons a t ih =>
    by_cases ha : (a.id == note_id) = true
    · rw [setNote, if_pos ha] at h
      rcases List.mem_cons.mp h with rfl | hm
      · exact Or.inr rfl
      · exact Or.inl (List.mem_cons_of_mem a hm)
    · rw [setNote, if_neg ha] at h
      rcases List.mem_cons.mp h with hma | hm
      · exact Or.inl (by rw [hma]; exact List.mem_cons_self a t)
      · rcases ih hm with hm' | hm'
        · exact Or.inl (List.mem_cons_of_mem a hm')
        · exact Or.inr hm'

/-- Inversion of a successful `PUT /notes/{id}`. -/
theorem update_note_ok {s : Store} {note_id : Nat} {d : NoteUpdate}
    {r : Note × Store} (h : update_note s note_id d = .ok r) :
    ∃ note, find_note s note_id = some note ∧
      r = (applyUpdate note d, setNote s note_id (applyUpdate note d)) := by
  unfold update_note at h
  cases hf : find_note s note_id with
  | none => rw [hf] at h; cases h
  | some note =>
    rw [hf] at h
    injection h with h'
    exact ⟨note, rfl, h'.symm⟩

/-- Inversion of a successful `DELETE /notes/{id}`. -/
theorem delete_note_ok {s : Store} {note_id : Nat} {r : String × Store}
    (h : delete_note s note_id = .ok r) :
    ∃ note, find_note s note_id = some note ∧
      r = ("Note deleted", s.eraseP (fun m => m.id == note_id)) := by
  unfold delete_note at h
  cases hf : find_note s note_id with
  | none => rw [hf] at h; cases h
  | some note =>
    rw [hf] at h
    injection h with h'
    exact ⟨note, rfl, h'.symm⟩

/-! ### Preservation of the store invariant -/

theorem WF_create {s : Store} (hwf : WF s) (b : NoteCreate) :
    WF (create_note s b).2 := by
  obtain ⟨hnd, hpos⟩ := hwf
  constructor
  · simp only [create_note, List.map_append, List.map_cons, List.map_nil]
    refine List.Nodup.append hnd (List.nodup_singleton _) ?_
    intro x hx hx'
    obtain ⟨m, hm, hmid⟩ := List.mem_map.mp hx
    have hxid : x = nextId s := by simpa using hx'
    exact id_ne_nextId hm (hmid.trans hxid)
  · intro m hm
    simp only [create_note, List.mem_append, List.mem_singleton] at hm
    rcases hm with hm | rfl
    · exact hpos m hm
    · simp [nextId]

theorem WF_setNote {s : Store} (hwf : WF s) {note_id : Nat} {note' : Note}
    (hid : note'.id = note_id) (hpos' : 1 ≤ note'.id) :
    WF (setNote s note_id note') := by
  obtain ⟨hnd, hpos⟩ := hwf
  refine ⟨by rw [map_id_setNote s note_id note' hid]; exact hnd, ?_⟩
  intro m hm
  rcases mem_setNote hm with hm' | rfl
  · exact hpos m hm'
  · exact hpos'

theorem WF_eraseP {s : Store} (hwf : WF s) (note_id : Nat) :
    WF (s.eraseP (fun m => m.id == note_id)) := by
  obtain ⟨hnd, hpos⟩ := hwf
  have hsub : List.Sublist (s.eraseP (fun m => m.id == note_id)) s :=
    List.eraseP_sublist s
  refine ⟨List.Nodup.sublist (List.Sublist.map Note.id hsub) hnd, ?_⟩
  intro m hm
  exact hpos m (hsub.subset hm)

/-- Every handler preserves the store invariant. -/
theorem WF_handle {s : Store} (hwf : WF s) (r : Request) :
    WF (handle s r).2 := by
  cases r with
  | create b => exact WF_create hwf b
  | list => exact hwf
  | get note_id =>
    simp only [handle]
    cases read_note s note_id <;> exact hwf
  | update note_id title content =>
    simp only [handle]
    cases h : update_note s note_id (parseNoteUpdate title content) with
    | error e => exact hwf
    | ok r =>
      obtain ⟨note, hf, rfl⟩ := update_note_ok h
      obtain ⟨hmem, hid⟩ := find_note_mem hf
      refine WF_setNote hwf (by rw [applyUpdate_id, hid]) ?_
      rw [applyUpdate_id]
      exact hwf.2 note hmem
  | delete note_id =>
    simp only [handle]
    cases h : delete_note s note_id with
    | error e => exact hwf
    | ok r =>
      obtain ⟨note, hf, rfl⟩ := delete_note_ok h
      exact WF_eraseP hwf note_id
  | summarize note_id ollama =>
    simp only [handle]
    cases summarize_note s note_id ollama <;> exact hwf

theorem run_nil (s : Store) : run s [] = s := rfl

theorem run_cons (s : Store) (r : Request) (reqs : List Request) :
    run s (r :: reqs) = run (handle s r).2 reqs := rfl

/-- The store invariant holds along every request sequence. -/
theorem WF_run {s : Store} (hwf : WF s) (reqs : List Request) :
    WF (run s reqs) := by
  induction reqs generalizing s with
  | nil => exact hwf
  | cons r t ih => exact ih (WF_handle hwf r)

theorem WF_nil : WF [] :=
  ⟨List.nodup_nil, fun m hm => absurd hm (List.not_mem_nil m)⟩

/-- Creating and then fetching by the assigned id returns the fresh row. -/
theorem read_note_create (s : Store) (b : NoteCreate) :
    read_note (create_note s b).2 (create_note s b).1.id = .ok (create_note s b).1 := by
  have hfind : find_note (create_note s b).2 (create_note s b).1.id =
      some (create_note s b).1 :=
    find_note_append_fresh s _ rfl
  unfold read_note
  rw [hfind]

/-! ### The claims -/

/-- C1: for every existing note, the update operation applies only the fields
present in the request body and commits: supplying only `title` changes the
title and leaves the content unchanged (both in the returned entity and in
the store), and vice versa; supplying no fields is a no-op that returns the
unchanged entity and leaves the store unchanged. -/
theorem C1_update_applies_only_present_fields (s : Store) (note_id : Nat)
    (note : Note) (h : find_note s note_id = some note) :
    (∀ t, ∃ s', update_note s note_id { title := some t, content := none } =
          .ok ({ note with title := t }, s') ∧
        find_note s' note_id = some { note with title := t }) ∧
    (∀ c, ∃ s', update_note s note_id { title := none, content := some c } =
          .ok ({ note with content := c }, s') ∧
        find_note s' note_id = some { note with content := c }) ∧
    update_note s note_id { title := none, content := none } = .ok (note, s) := by
  have hid := (find_note_mem h).2
  refine ⟨fun t => ⟨setNote s note_id { note with title := t }, ?_, ?_⟩,
    fun c => ⟨setNote s note_id { note with content := c }, ?_, ?_⟩, ?_⟩
  · unfold update_note
    rw [h]
    rfl
  · exact find_note_setNote h hid
  · unfold update_note
    rw [h]
    rfl
  · exact find_note_setNote h hid
  · unfold update_note
    rw [h]
    have hset : setNote s note_id note = s := setNote_of_find h
    show Except.ok (note, setNote s note_id note) = Except.ok (note, s)
    rw [hset]

/-- C1 witness: concrete instance of the hypotheses and conclusion on a
one-row store. -/
theorem C1_witness :
    update_note [{ id := 1, title := "Groceries", content := "milk" }] 1
        { title := none, content := none } =
      .ok ({ id := 1, title := "Groceries", content := "milk" },
        [{ id := 1, title := "Groceries", content := "milk" }]) :=
  (C1_update_applies_only_present_fields
    [{ id := 1, title := "Groceries", content := "milk" }] 1
    { id := 1, title := "Groceries", content := "milk" } rfl).2.2

/-- C4: creating a note with `{title, content}` returns the persisted entity
with an assigned id, and fetching by that id yields a note with identical
title and content. -/
theorem C4_create_then_fetch (s : Store) (title content : String) :
    (create_note s { title := title, content := content }).1.title = title ∧
    (create_note s { title := title, content := content }).1.content = content ∧
    read_note (create_note s { title := title, content := content }).2
        (create_note s { title := title, content := content }).1.id =
      .ok (create_note s { title := title, content := content }).1 :=
  ⟨rfl, rfl, read_note_create s { title := title, content := content }⟩

/-- C10: an update whose body explicitly sets a field to `null` is treated
exactly like omitting that field (Pydantic parses both to `None`), so the
stored value is kept; an explicit empty string is applied and overwrites the
field. -/
theorem C10_null_field_equals_absent_field (s : Store) (note_id : Nat)
    (note : Note) (h : find_note s note_id = some note) :
    (∀ f, update_note s note_id (parseNoteUpdate .null f) =
        update_note s note_id (parseNoteUpdate .absent f)) ∧
    (∀ f, update_note s note_id (parseNoteUpdate f .null) =
        update_note s note_id (parseNoteUpdate f .absent)) ∧
    (∃ s', update_note s note_id (parseNoteUpdate (.str "") .absent) =
        .ok ({ note with title := "" }, s') ∧
      find_note s' note_id = some { note with title := "" }) ∧
    (∃ s', update_note s note_id (parseNoteUpdate .absent (.str "")) =
        .ok ({ note with content := "" }, s') ∧
      find_note s' note_id = some { note with content := "" }) := by
  have hid := (find_note_mem h).2
  refine ⟨fun f => rfl, fun f => rfl,
    ⟨setNote s note_id { note with title := "" }, ?_, ?_⟩,
    ⟨setNote s note_id { note with content := "" }, ?_, ?_⟩⟩
  · unfold update_note
    rw [h]
    rfl
  · exact find_note_setNote h hid
  · unfold update_note
    rw [h]
    rfl
  · exact find_note_setNote h hid

/-- C10 witness: on a one-row store, an update with an explicitly null title
keeps the stored title, while an empty-string title overwrites it. -/
theorem C10_witness :
    update_note [{ id := 1, title := "a", content := "b" }] 1
        (parseNoteUpdate .null .absent) =
      update_note [{ id := 1, title := "a", content := "b" }] 1
        (parseNoteUpdate .absent .absent) ∧
    (∃ s', update_note [{ id := 1, title := "a", content := "b" }] 1
          (parseNoteUpdate (.str "") .absent) =
        .ok ({ id := 1, title := "", content := "b" }, s') ∧
      find_note s' 1 = some { id := 1, title := "", content := "b" }) :=
  ⟨(C10_null_field_equals_absent_field [{ id := 1, title := "a", content := "b" }] 1
      { id := 1, title := "a", content := "b" } rfl).1 .absent,
    (C10_null_field_equals_absent_field [{ id := 1, title := "a", content := "b" }] 1
      { id := 1, title := "a", content := "b" } rfl).2.2.1⟩

/-- C2: on an existing note, a failed network call yields a 500 whose detail
embeds the underlying cause; a non-200 upstream status yields a 500 whose
detail embeds the upstream response body; a 200 whose extracted text field is
absent or blank after stripping whitespace yields the fixed empty-result
500.  (Success for the upstream HTTP call means status 200, the only status
Ollama's generate endpoint returns on success.) -/
theorem C2_summarize_error_taxonomy (s : Store) (note_id : Nat) (note : Note)
    (h : find_note s note_id = some note) :
    (∀ e, summarize_note s note_id (.requestException e) =
        .error { status_code := 500, detail := "Error connecting to Ollama: " ++ e }) ∧
    (∀ status_code text responseField, status_code ≠ 200 →
        summarize_note s note_id (.httpResponse status_code text responseField) =
          .error { status_code := 500, detail := "Ollama error: " ++ text }) ∧
    (∀ text responseField, pyStrip (responseField.getD "") = "" →
        summarize_note s note_id (.httpResponse 200 text responseField) =
          .error { status_code := 500, detail := "No summary returned from Ollama." }) := by
  refine ⟨fun e => ?_, fun status_code text responseField hsc => ?_,
    fun text responseField hblank => ?_⟩
  · unfold summarize_note
    rw [h]
  · unfold summarize_note
    rw [h]
    simp [hsc]
  · unfold summarize_note
    rw [h]
    simp [hblank]

/-- C2 witness: the three failure classes on a one-row store. -/
theorem C2_witness :
    summarize_note [{ id := 1, title := "t", content := "c" }] 1
        (.requestException "Connection refused") =
      .error
        { status_code := 500,
          detail := "Error connecting to Ollama: Connection refused" } ∧
    summarize_note [{ id := 1, title := "t", content := "c" }] 1
        (.httpResponse 503 "model overloaded" none) =
      .error { status_code := 500, detail := "Ollama error: model overloaded" } ∧
    summarize_note [{ id := 1, title := "t", content := "c" }] 1
        (.httpResponse 200 "{}" (some "  ")) =
      .error { status_code := 500, detail := "No summary returned from Ollama." } :=
  ⟨(C2_summarize_error_taxonomy [{ id := 1, title := "t", content := "c" }] 1
      { id := 1, title := "t", content := "c" } rfl).1 "Connection refused",
    (C2_summarize_error_taxonomy [{ id := 1, title := "t", content := "c" }] 1
      { id := 1, title := "t", content := "c" } rfl).2.1 503 "model overloaded" none
      (by decide),
    (C2_summarize_error_taxonomy [{ id := 1, title := "t", content := "c" }] 1
      { id := 1, title := "t", content := "c" } rfl).2.2 "{}" (some "  ") rfl⟩

/-- C3: for every id with no matching row, get, update, delete and summarize
all return the 404 `Note not found` contract; and after a successful delete
(on a store whose primary keys are distinct, as the primary-key constraint
guarantees) the id no longer matches, so a second delete — and any get or
update — yields the same 404 rather than a crash. -/
theorem C3_missing_id_yields_not_found (s : Store) (note_id : Nat) :
    (find_note s note_id = none →
      read_note s note_id = .error noteNotFound ∧
      (∀ d, update_note s note_id d = .error noteNotFound) ∧
      delete_note s note_id = .error noteNotFound ∧
      (∀ o, summarize_note s note_id o = .error noteNotFound)) ∧
    ((s.map Note.id).Nodup →
      ∀ note, find_note s note_id = some note →
        ∀ s', delete_note s note_id = .ok ("Note deleted", s') →
          read_note s' note_id = .error noteNotFound ∧
          (∀ d, update_note s' note_id d = .error noteNotFound) ∧
          delete_note s' note_id = .error noteNotFound) := by
  constructor
  · intro hnone
    refine ⟨?_, fun d => ?_, ?_, fun o => ?_⟩
    · unfold read_note; rw [hnone]
    · unfold update_note; rw [hnone]
    · unfold delete_note; rw [hnone]
    · unfold summarize_note; rw [hnone]
  · intro hnd note hsome s' hdel
    obtain ⟨note'', _, hr⟩ := delete_note_ok hdel
    have hs' : s' = s.eraseP (fun m => m.id == note_id) := congrArg Prod.snd hr
    have hnone : find_note s' note_id = none := by
      rw [hs']; exact find_note_eraseP hnd
    refine ⟨?_, fun d => ?_, ?_⟩
    · unfold read_note; rw [hnone]
    · unfold update_note; rw [hnone]
    · unfold delete_note; rw [hnone]

/-- C3 witness: a miss on an empty store and a delete-twice on a one-row
store. -/
theorem C3_witness :
    read_note [] 999999 = .error noteNotFound ∧
    delete_note [{ id := 1, title := "t", content := "c" }] 1 =
      .ok ("Note deleted", []) ∧
    delete_note ([] : Store) 1 = .error noteNotFound :=
  ⟨((C3_missing_id_yields_not_found [] 999999).1 rfl).1,
    rfl,
    ((C3_missing_id_yields_not_found [{ id := 1, title := "t", content := "c" }] 1).2
      (by decide) { id := 1, title := "t", content := "c" } rfl [] rfl).2.2⟩

/-- C5 counterexample: ids are reused.  Two creates assign ids 1 and 2;
deleting note 2 and creating again hands the new note the already-used id 2,
because SQLite assigns `max(rowid) + 1` for a plain `INTEGER PRIMARY KEY`. -/
theorem C5_counterexample :
    (run [] [.create { title := "a", content := "a" },
        .create { title := "b", content := "b" }]) =
      [{ id := 1, title := "a", content := "a" },
        { id := 2, title := "b", content := "b" }] ∧
    (run [] [.create { title := "a", content := "a" },
        .create { title := "b", content := "b" }, .delete 2]) =
      [{ id := 1, title := "a", content := "a" }] ∧
    (handle [{ id := 1, title := "a", content := "a" }]
        (.create { title := "c", content := "c" })).1 =
      .note { id := 2, title := "c", content := "c" } :=
  ⟨rfl, rfl, rfl⟩

/-- C5 (amended): across every sequence of requests started from an empty
store, every persisted note has a populated positive id and its `title` and
`content` are the (non-null) strings supplied on create/update — the row type
only carries strings — and ids of live notes are pairwise distinct; however,
an id of a deleted note CAN be reassigned, since the store assigns
`max(current ids) + 1`. -/
theorem C5_ids_distinct_and_fields_populated (reqs : List Request) :
    ((run [] reqs).map Note.id).Nodup ∧
    (∀ m ∈ run [] reqs, 1 ≤ m.id) ∧
    (∀ s b, (create_note s b).1.id = maxId s + 1) :=
  ⟨(WF_run WF_nil reqs).1, (WF_run WF_nil reqs).2, fun _ _ => rfl⟩

/-- C6: on an existing note, when the upstream call returns status 200 with a
text field that is non-blank after stripping, summarize returns the stored
note's id, title and content together with the stripped text verbatim — no
truncation or other post-processing. -/
theorem C6_summarize_success_verbatim (s : Store) (note_id : Nat) (note : Note)
    (h : find_note s note_id = some note) (text r : String)
    (hr : pyStrip r ≠ "") :
    summarize_note s note_id (.httpResponse 200 text (some r)) =
      .ok
        { id := note.id, title := note.title, content := note.content,
          summary := pyStrip r } := by
  unfold summarize_note
  rw [h]
  simp [hr]

/-- C6 witness: a concrete successful summarize. -/
theorem C6_witness :
    summarize_note [{ id := 1, title := "t", content := "c" }] 1
        (.httpResponse 200 "{}" (some " - a\n- b ")) =
      .ok { id := 1, title := "t", content := "c", summary := "- a\n- b" } :=
  C6_summarize_success_verbatim [{ id := 1, title := "t", content := "c" }] 1
    { id := 1, title := "t", content := "c" } rfl "{}" " - a\n- b " (by decide)

/-- C7: the summarize endpoint never modifies the store — for every store,
id and upstream outcome, the table after the request is the table before. -/
theorem C7_summarize_leaves_store_unchanged (s : Store) (note_id : Nat)
    (ollama : OllamaOutcome) :
    (handle s (.summarize note_id ollama)).2 = s := by
  simp only [handle]
  cases summarize_note s note_id ollama <;> rfl

/-- C8: on an existing id (under the primary-key uniqueness the store
enforces), delete returns the body `Note deleted` and removes exactly that
row: the id no longer resolves, every remaining row was already present, and
the table shrinks by one. -/
theorem C8_delete_removes_row (s : Store) (note_id : Nat) (note : Note)
    (hnd : (s.map Note.id).Nodup) (h : find_note s note_id = some note) :
    ∃ s', delete_note s note_id = .ok ("Note deleted", s') ∧
      find_note s' note_id = none ∧
      (∀ m ∈ s', m ∈ s) ∧
      s'.length + 1 = s.length := by
  refine ⟨s.eraseP (fun m => m.id == note_id), ?_, find_note_eraseP hnd, ?_, ?_⟩
  · unfold delete_note; rw [h]
  · intro m hm
    exact (List.eraseP_sublist s).subset hm
  · have hmem := List.mem_of_find?_eq_some h
    have h' : List.find? (fun m : Note => m.id == note_id) s = some note := h
    have hp := List.find?_some h'
    rw [List.length_eraseP_of_mem hmem hp]
    have hlen : 0 < s.length := List.length_pos.mpr (List.ne_nil_of_mem hmem)
    omega

/-- C8 witness: deleting the only row of a one-row store. -/
theorem C8_witness :
    ∃ s' : Store, delete_note [{ id := 1, title := "t", content := "c" }] 1 =
        .ok ("Note deleted", s') ∧
      find_note s' 1 = none ∧
      (∀ m ∈ s', m ∈ ([{ id := 1, title := "t", content := "c" }] : Store)) ∧
      s'.length + 1 = 1 :=
  C8_delete_removes_row [{ id := 1, title := "t", content := "c" }] 1
    { id := 1, title := "t", content := "c" } (by decide) rfl

theorem length_run_creates (bs : List NoteCreate) (s : Store) :
    (run s (bs.map Request.create)).length = s.length + bs.length := by
  induction bs generalizing s with
  | nil => simp [run]
  | cons b t ih =>
    rw [List.map_cons, run_cons, ih]
    show ((create_note s b).2.length) + t.length = s.length + (t.length + 1)
    simp only [create_note, List.length_append, List.length_cons, List.length_nil]
    omega

/-- C9: starting from an empty store, after N creates (and nothing else) the
list endpoint returns exactly N notes with pairwise distinct ids. -/
theorem C9_list_after_creates (bs : List NoteCreate) :
    (read_notes (run [] (bs.map Request.create))).length = bs.length ∧
    ((read_notes (run [] (bs.map Request.create))).map Note.id).Nodup := by
  constructor
  · have hlen := length_run_creates bs []
    simpa [read_notes] using hlen
  · exact (WF_run WF_nil (bs.map Request.create)).1

end NotesApi
